import Mathlib

/-!
# Verification of `ccperf.py` against its specification

This file gives a shallow embedding of the metrics-collection engine of
`ccperf.py` (a build-performance measurement tool) and settles the claims
of the specification against it.

Modelling conventions:
* Python strings are Lean `String`s; Python ints are `Int`; Python floats
  (only used for wall-clock durations) are modelled as `ℚ` values carried
  through unchanged.
* External effects (the compiler subprocess, `os.stat`, the source file's
  size) enter the model as explicit parameters describing their outcome.
* `shlex.split` (POSIX mode, as called by `ccperf.py`) is modelled by an
  executable state machine `shlexSplit`; a parse failure is the
  `ValueError` that the Python function raises.
* Python exceptions are modelled by `Except`: a function that can raise
  returns `Except PyError α`.
-/

namespace Ccperf

/-! ## Kernel-computable string primitives

The Lean core `String` functions `startsWith`, `endsWith`, `splitOn`,
`toLower` and `trim` are implemented on `Substring` positions and do not
reduce inside the kernel, so the corresponding Python operations are
modelled here by structurally recursive functions on the character list
of the string.  Each is a faithful model of the Python string method it
is named after. -/

/-- Python `s.startswith(p)`. -/
def strStartsWith (s p : String) : Bool :=
  p.data.isPrefixOf s.data

/-- Python `s.endswith(p)`. -/
def strEndsWith (s p : String) : Bool :=
  p.data.reverse.isPrefixOf s.data.reverse

/-- Python `s.lower()` (ASCII, which is all `ccperf.py` relies on). -/
def strToLower (s : String) : String :=
  ⟨s.data.map Char.toLower⟩

/-- The whitespace characters removed by Python `str.strip()`. -/
def isPyWS (c : Char) : Bool :=
  c = ' ' || c = '\t' || c = '\n' || c = '\r' || c = '\x0b' || c = '\x0c'

/-- Python `s.strip()`. -/
def pyStrip (s : String) : String :=
  ⟨((s.data.dropWhile isPyWS).reverse.dropWhile isPyWS).reverse⟩

/-- Python `s.split(sep)` for a one-character separator, on char lists. -/
def splitOnCharAux (sep : Char) : List Char → List (List Char)
  | [] => [[]]
  | c :: rest =>
    let r := splitOnCharAux sep rest
    if c = sep then [] :: r
    else
      match r with
      | s :: ss => (c :: s) :: ss
      | [] => [[c]]

/-- Python `s.split(sep)` for a one-character separator. -/
def splitOnChar (sep : Char) (s : String) : List String :=
  (splitOnCharAux sep s.data).map (fun l => ⟨l⟩)

/-- Does `sub` occur in `l` (at any position)? -/
def listContains (sub : List Char) : List Char → Bool
  | [] => sub.isPrefixOf []
  | c :: rest => sub.isPrefixOf (c :: rest) || listContains sub rest

/-- Python's `sub in s` substring test. -/
def pyInStr (sub s : String) : Bool :=
  listContains sub.data s.data

/-- Errors raised by Python's `shlex.split` (POSIX mode): an unterminated
quote raises `ValueError("No closing quotation")` and a trailing escape
character raises `ValueError("No escaped character")`. -/
inductive ShlexErr where
  | noClosingQuote
  | noEscapedChar
deriving DecidableEq, Repr

/-- The characters `shlex` treats as token-separating whitespace. -/
def isShlexWS (c : Char) : Bool :=
  c = ' ' || c = '\t' || c = '\r' || c = '\n'

/-- Lexer modes of the `shlex` state machine: outside quotes, inside
single quotes, inside double quotes. -/
inductive SMode where
  | norm
  | squote
  | dquote
deriving DecidableEq, Repr

/-- Append the token under construction (if any) to the accumulated list. -/
def shlexFlush (cur : Option (List Char)) (acc : List String) : List String :=
  match cur with
  | none => acc
  | some t => acc ++ [⟨t⟩]

/-- The `shlex.split` state machine (POSIX rules, no comment handling):
whitespace separates tokens; `\` escapes the next character outside
quotes; single quotes are fully literal; inside double quotes `\` escapes
only `\` and `"`.  Empty quoted strings produce empty tokens. -/
def shlexAux : SMode → Option (List Char) → List String → List Char →
    Except ShlexErr (List String)
  | .norm, cur, acc, [] => .ok (shlexFlush cur acc)
  | .norm, cur, acc, c :: rest =>
    if isShlexWS c then
      shlexAux .norm none (shlexFlush cur acc) rest
    else if c = '\'' then
      shlexAux .squote (some (cur.getD [])) acc rest
    else if c = '"' then
      shlexAux .dquote (some (cur.getD [])) acc rest
    else if c = '\\' then
      match rest with
      | [] => .error .noEscapedChar
      | d :: rest2 => shlexAux .norm (some (cur.getD [] ++ [d])) acc rest2
    else
      shlexAux .norm (some (cur.getD [] ++ [c])) acc rest
  | .squote, _, _, [] => .error .noClosingQuote
  | .squote, cur, acc, c :: rest =>
    if c = '\'' then shlexAux .norm cur acc rest
    else shlexAux .squote (some (cur.getD [] ++ [c])) acc rest
  | .dquote, _, _, [] => .error .noClosingQuote
  | .dquote, cur, acc, c :: rest =>
    if c = '"' then shlexAux .norm cur acc rest
    else if c = '\\' then
      match rest with
      | [] => .error .noEscapedChar
      | d :: rest2 =>
        if d = '"' || d = '\\' then
          shlexAux .dquote (some (cur.getD [] ++ [d])) acc rest2
        else
          shlexAux .dquote (some (cur.getD [] ++ ['\\', d])) acc rest2
    else
      shlexAux .dquote (some (cur.getD [] ++ [c])) acc rest

/-- Model of Python `shlex.split(cmd)` as used by `ccperf.py`. -/
def shlexSplit (s : String) : Except ShlexErr (List String) :=
  shlexAux .norm none [] s.data

/-! ## Model of the `os.path` functions used by `ccperf.py` (POSIX) -/

/-- `os.path.isabs`. -/
def isabs (p : String) : Bool := strStartsWith p "/"

/-- `os.path.join(a, b)` for a single pair (POSIX). -/
def pyJoin (a b : String) : String :=
  if isabs b then b
  else if a = "" then b
  else if strEndsWith a "/" then a ++ b
  else a ++ "/" ++ b

/-- The component-processing loop of `posixpath.normpath`: drop `""` and
`"."`, resolve `".."` against the accumulated components. -/
def normComps (hasRoot : Bool) : List String → List String → List String
  | acc, [] => acc
  | acc, comp :: rest =>
    if comp = "" || comp = "." then
      normComps hasRoot acc rest
    else if comp ≠ ".." || (!hasRoot && acc = []) ||
        (acc ≠ [] && acc.getLast? = some "..") then
      normComps hasRoot (acc ++ [comp]) rest
    else if acc ≠ [] then
      normComps hasRoot acc.dropLast rest
    else
      normComps hasRoot acc rest

/-- `posixpath.normpath`. -/
def normpath (path : String) : String :=
  if path = "" then "." else
  let initialSlashes : Nat :=
    if strStartsWith path "/" then
      (if strStartsWith path "//" && !(strStartsWith path "///") then 2 else 1)
    else 0
  let comps := splitOnChar '/' path
  let newComps := normComps (initialSlashes ≠ 0) [] comps
  let joined := String.intercalate "/" newComps
  let p2 := String.mk (List.replicate initialSlashes '/') ++ joined
  if p2 = "" then "." else p2

/-- `os.path.abspath(p)` relative to the process working directory `cwd`:
`normpath(join(cwd, p))`. -/
def abspath (cwd p : String) : String :=
  normpath (if isabs p then p else pyJoin cwd p)

/-- `os.path.basename` (POSIX): the part after the last `/`. -/
def pyBasename (p : String) : String :=
  (splitOnChar '/' p).getLastD ""

/-! ## Compiler Classifier (`is_gcc_command`, ccperf.py lines 30-35) -/

/-- `is_gcc_command(cmd)`: tokenize the command, take the basename of the
first token lowercased, and test it for a known compiler-family marker.

Any exception — the `ValueError` of an untokenizable command or the
`IndexError` of indexing `[0]` into the empty token list of an empty
command — is swallowed by the bare `except:` and yields `False`. -/
def is_gcc_command (cmd : String) : Bool :=
  match shlexSplit cmd with
  | .error _ => false
  | .ok [] => false
  | .ok (w :: _) =>
    let program := strToLower (pyBasename w)
    pyInStr "gcc" program || pyInStr "g++" program ||
      pyInStr "clang" program || pyInStr "clang++" program

/-! ## Command Transformer (inside `gcc_preprocess_file`, ccperf.py lines 46-67)

The source rewrites the token list in place, scanning the index `i` from
`len(opts) - 1` down to `1`:

* an empty (stripped) token is popped;
* `-c` is replaced by `-E`;
* the argument of `-o` is replaced by the scratch-file path;
* `-M -MM -MG -MP -MD -MMD` are popped;
* `-MF -MT -MQ` are popped together with the following token;
* finally `-H` is appended.
-/

/-- Dependency-generation flags removed alone (ccperf.py line 58). -/
def depFlags0 : List String := ["-M", "-MM", "-MG", "-MP", "-MD", "-MMD"]

/-- Dependency-generation flags removed together with their argument
(ccperf.py line 61). -/
def depFlags1 : List String := ["-MF", "-MT", "-MQ"]

/-- One iteration of the rewriting loop at index `i` (ccperf.py lines 48-64).
The branch structure matches the Python `if`/`elif` chain; popping an empty
token falls through to a chain no branch of which can fire for it. -/
def transformStep (cpp : String) (opts : List String) (i : Nat) : List String :=
  let opt := pyStrip (opts.getD i "")
  if opt = "" then opts.eraseIdx i
  else if opt = "-c" then opts.set i "-E"
  else if opt = "-o" then
    (if i + 1 < opts.length then opts.set (i + 1) cpp else opts)
  else if opt ∈ depFlags0 then opts.eraseIdx i
  else if opt ∈ depFlags1 then
    (if i + 1 < opts.length then (opts.eraseIdx (i + 1)).eraseIdx i else opts)
  else opts

/-- The rewriting loop `for i in range(len(opts) - 1, 0, -1)`: process
index `i`, then `i - 1`, …, down to `1`; index `0` (the program name) is
never examined. -/
def stripTokens (cpp : String) (opts : List String) : Nat → List String
  | 0 => opts
  | i + 1 => stripTokens cpp (transformStep cpp opts (i + 1)) i

/-- The whole token transformation of `gcc_preprocess_file`: run the
rewriting loop over the split command, then append `-H` (ccperf.py line 67). -/
def gccTransformTokens (cpp : String) (opts : List String) : List String :=
  stripTokens cpp opts (opts.length - 1) ++ ["-H"]

/-- Structural (right-to-left) view of one loop iteration: the effect of
processing original token `t` when the already-processed suffix is `acc`. -/
def backStep (cpp t : String) (acc : List String) : List String :=
  let s := pyStrip t
  if s = "" then acc
  else if s = "-c" then "-E" :: acc
  else if s = "-o" then
    (match acc with
     | _ :: rest => t :: cpp :: rest
     | [] => [t])
  else if s ∈ depFlags0 then acc
  else if s ∈ depFlags1 then
    (match acc with
     | _ :: rest => rest
     | [] => [t])
  else t :: acc

theorem getD_append_len {α : Type} (l : List α) (t : α) (s : List α) (d : α) :
    (l ++ t :: s).getD l.length d = t := by
  induction l with
  | nil => rfl
  | cons a l ih => simpa using ih

theorem set_append_len {α : Type} (l : List α) (t : α) (s : List α) (v : α) :
    (l ++ t :: s).set l.length v = l ++ v :: s := by
  induction l with
  | nil => rfl
  | cons a l ih => simp [ih]

theorem eraseIdx_append_len {α : Type} (l : List α) (t : α) (s : List α) :
    (l ++ t :: s).eraseIdx l.length = l ++ s := by
  induction l with
  | nil => rfl
  | cons a l ih => simpa using ih

theorem length_append_cons {α : Type} (l : List α) (t : α) (s : List α) :
    (l ++ t :: s).length = l.length + 1 + s.length := by
  simp [List.length_append]; omega

/-- Effect of one loop iteration at the seam: the list is an untouched
prefix `x :: Q`, the original token `t` at index `Q.length + 1`, and the
already-processed suffix `S`. -/
theorem transformStep_seam (cpp x t : String) (Q S : List String) :
    transformStep cpp (x :: (Q ++ t :: S)) (Q.length + 1) =
      x :: (Q ++ backStep cpp t S) := by
  have hx : x :: (Q ++ t :: S) = (x :: Q) ++ t :: S := by simp
  have hlen : (x :: Q).length = Q.length + 1 := by simp
  rw [show (Q.length + 1) = (x :: Q).length from hlen.symm, hx]
  unfold transformStep backStep
  rw [getD_append_len]
  by_cases h0 : pyStrip t = ""
  · simp only [h0, if_pos rfl, eraseIdx_append_len]
    simp
  · rw [if_neg h0, if_neg h0]
    by_cases hc : pyStrip t = "-c"
    · simp only [hc, if_pos rfl, set_append_len]
      simp
    · rw [if_neg hc, if_neg hc]
      by_cases ho : pyStrip t = "-o"
      · rw [if_pos ho, if_pos ho]
        cases S with
        | nil =>
          rw [if_neg (by rw [length_append_cons]; simp)]
          simp
        | cons a S2 =>
          rw [if_pos (by rw [length_append_cons]; simp)]
          have h1 : (x :: Q) ++ t :: a :: S2 = ((x :: Q) ++ [t]) ++ a :: S2 := by
            simp
          have h2 : (x :: Q).length + 1 = ((x :: Q) ++ [t]).length := by simp
          rw [h1, h2, set_append_len]
          simp
      · rw [if_neg ho, if_neg ho]
        by_cases hm : pyStrip t ∈ depFlags0
        · simp only [if_pos hm, eraseIdx_append_len]
          simp
        · rw [if_neg hm, if_neg hm]
          by_cases hf : pyStrip t ∈ depFlags1
          · rw [if_pos hf, if_pos hf]
            cases S with
            | nil =>
              rw [if_neg (by rw [length_append_cons]; simp)]
              simp
            | cons a S2 =>
              rw [if_pos (by rw [length_append_cons]; simp)]
              have h1 : (x :: Q) ++ t :: a :: S2 = ((x :: Q) ++ [t]) ++ a :: S2 := by
                simp
              have h2 : (x :: Q).length + 1 = ((x :: Q) ++ [t]).length := by simp
              rw [h1, h2, eraseIdx_append_len]
              have h3 : (x :: Q) ++ [t] ++ S2 = (x :: Q) ++ t :: S2 := by simp
              rw [h3, eraseIdx_append_len]
              simp
          · rw [if_neg hf, if_neg hf]
            simp

/-- The backward in-place loop computes a right fold of `backStep` over the
tokens after the program name: when this loop runs, every index below the
one being processed still holds its original token, so the whole pass is a
structural right-to-left traversal. -/
theorem stripTokens_eq_foldr (cpp x : String) (P : List String) :
    ∀ S : List String,
      stripTokens cpp (x :: (P ++ S)) P.length =
        x :: P.foldr (backStep cpp) S := by
  induction P using List.reverseRecOn with
  | nil => intro S; rfl
  | append_singleton Q t ih =>
    intro S
    have hlen : (Q ++ [t]).length = Q.length + 1 := by simp
    rw [hlen]
    have harr : x :: ((Q ++ [t]) ++ S) = x :: (Q ++ t :: S) := by simp
    show stripTokens cpp
        (transformStep cpp (x :: ((Q ++ [t]) ++ S)) (Q.length + 1)) Q.length = _
    rw [harr, transformStep_seam, ih (backStep cpp t S)]
    simp [List.foldr_append]

/-- The full transformation on a nonempty token list, as a fold. -/
theorem gccTransformTokens_eq (cpp x : String) (args : List String) :
    gccTransformTokens cpp (x :: args) =
      (x :: args.foldr (backStep cpp) []) ++ ["-H"] := by
  have h := stripTokens_eq_foldr cpp x args []
  rw [List.append_nil] at h
  simp only [gccTransformTokens, List.length_cons, Nat.add_sub_cancel, h]

/-- A token that none of the rewriting branches recognizes: it passes
through the loop unchanged.  Such tokens are the safe arguments for the
flags that consume a following token. -/
def plainTok (t : String) : Bool :=
  decide (pyStrip t ≠ "" ∧ pyStrip t ≠ "-c" ∧ pyStrip t ≠ "-o" ∧
    pyStrip t ∉ depFlags0 ∧ pyStrip t ∉ depFlags1)

/-- Well-formedness of the tokens after the program name, under which the
backward scan behaves like the intended forward rewriting: no token strips
to empty, and every `-o`/`-MF`/`-MT`/`-MQ` is immediately followed by a
plain argument token. -/
def goodArgs : List String → Bool
  | [] => true
  | [t] => decide (pyStrip t ≠ "-o" ∧ pyStrip t ∉ depFlags1 ∧ pyStrip t ≠ "")
  | t :: a :: rest =>
    if pyStrip t = "-o" ∨ pyStrip t ∈ depFlags1 then
      plainTok a && goodArgs rest
    else
      decide (pyStrip t ≠ "") && goodArgs (a :: rest)

/-- Two-step list recursion matching the shape of `goodArgs`. -/
theorem pairRec {motive : List String → Prop} (h0 : motive [])
    (h1 : ∀ t, motive [t])
    (h2 : ∀ t a rest, motive rest → motive (a :: rest) → motive (t :: a :: rest)) :
    ∀ l, motive l := by
  have key : ∀ n l, List.length l ≤ n → motive l := by
    intro n
    induction n with
    | zero =>
      intro l hl
      have : l = [] := List.eq_nil_of_length_eq_zero (Nat.le_zero.mp hl)
      rw [this]; exact h0
    | succ n ih =>
      intro l hl
      match l with
      | [] => exact h0
      | [t] => exact h1 t
      | t :: a :: rest =>
        refine h2 t a rest (ih rest ?_) (ih (a :: rest) ?_) <;>
          simp only [List.length_cons] at hl ⊢ <;> omega
  intro l
  exact key l.length l le_rfl

theorem backStep_plain {t : String} (cpp : String) (acc : List String)
    (h : plainTok t = true) : backStep cpp t acc = t :: acc := by
  simp only [plainTok, decide_eq_true_eq] at h
  obtain ⟨h1, h2, h3, h4, h5⟩ := h
  simp [backStep, h1, h2, h3, h4, h5]

theorem backStep_dash_c {t : String} (cpp : String) (acc : List String)
    (h : pyStrip t = "-c") : backStep cpp t acc = "-E" :: acc := by
  simp [backStep, h]

theorem backStep_dash_o {t : String} (cpp : String) (a : String)
    (acc : List String) (h : pyStrip t = "-o") :
    backStep cpp t (a :: acc) = t :: cpp :: acc := by
  simp [backStep, h]

theorem depFlags0_ne : ∀ s ∈ depFlags0, s ≠ "" ∧ s ≠ "-c" ∧ s ≠ "-o" := by
  decide

theorem depFlags1_ne : ∀ s ∈ depFlags1,
    s ≠ "" ∧ s ≠ "-c" ∧ s ≠ "-o" ∧ s ∉ depFlags0 := by
  decide

theorem backStep_dep0 {t : String} (cpp : String) (acc : List String)
    (h : pyStrip t ∈ depFlags0) : backStep cpp t acc = acc := by
  obtain ⟨h1, h2, h3⟩ := depFlags0_ne _ h
  simp [backStep, h, h1, h2, h3]

theorem backStep_dep1 {t : String} (cpp : String) (a : String)
    (acc : List String) (h : pyStrip t ∈ depFlags1) :
    backStep cpp t (a :: acc) = acc := by
  obtain ⟨h1, h2, h3, h4⟩ := depFlags1_ne _ h
  simp [backStep, h, h1, h2, h3, h4]

/-- Membership in the folded result under `goodArgs`: every output token is
either from the initial suffix, the inserted `-E`, the scratch path, or an
input token that is not a dependency flag and not `-c`. -/
theorem foldr_mem (cpp : String) (S : List String) :
    ∀ args : List String, goodArgs args = true →
      ∀ x ∈ args.foldr (backStep cpp) S,
        x ∈ S ∨ x = "-E" ∨ x = cpp ∨
          (x ∈ args ∧ pyStrip x ∉ depFlags0 ∧ pyStrip x ∉ depFlags1 ∧ pyStrip x ≠ "-c") := by
  refine pairRec ?_ ?_ ?_
  · intro _ x hx
    exact Or.inl hx
  · intro t hg x hx
    simp only [goodArgs, decide_eq_true_eq] at hg
    obtain ⟨ho, hf, he⟩ := hg
    simp only [List.foldr_cons, List.foldr_nil] at hx
    by_cases hc : pyStrip t = "-c"
    · rw [backStep_dash_c cpp S hc] at hx
      rcases List.mem_cons.mp hx with rfl | hx
      · exact Or.inr (Or.inl rfl)
      · exact Or.inl hx
    · by_cases hm : pyStrip t ∈ depFlags0
      · rw [backStep_dep0 cpp S hm] at hx
        exact Or.inl hx
      · have hp : plainTok t = true := by
          simp [plainTok, he, hc, ho, hm, hf]
        rw [backStep_plain cpp S hp] at hx
        rcases List.mem_cons.mp hx with rfl | hx
        · exact Or.inr (Or.inr (Or.inr ⟨List.mem_singleton_self x, hm, hf, hc⟩))
        · exact Or.inl hx
  · intro t a rest ih1 ih2 hg x hx
    by_cases hpair : pyStrip t = "-o" ∨ pyStrip t ∈ depFlags1
    · rw [show goodArgs (t :: a :: rest) = (plainTok a && goodArgs rest) from
          if_pos hpair, Bool.and_eq_true] at hg
      obtain ⟨hpa, hgr⟩ := hg
      simp only [List.foldr_cons] at hx
      rw [backStep_plain cpp _ hpa] at hx
      rcases hpair with ho | hf
      · rw [backStep_dash_o cpp a _ ho] at hx
        rcases List.mem_cons.mp hx with rfl | hx
        · refine Or.inr (Or.inr (Or.inr ⟨List.mem_cons_self x _, ?_, ?_, ?_⟩)) <;>
            rw [ho] <;> decide
        · rcases List.mem_cons.mp hx with rfl | hx
          · exact Or.inr (Or.inr (Or.inl rfl))
          · rcases ih1 hgr x hx with h | h | h | ⟨hmem, hh⟩
            · exact Or.inl h
            · exact Or.inr (Or.inl h)
            · exact Or.inr (Or.inr (Or.inl h))
            · exact Or.inr (Or.inr (Or.inr
                ⟨List.mem_cons_of_mem _ (List.mem_cons_of_mem _ hmem), hh⟩))
      · rw [backStep_dep1 cpp a _ hf] at hx
        rcases ih1 hgr x hx with h | h | h | ⟨hmem, hh⟩
        · exact Or.inl h
        · exact Or.inr (Or.inl h)
        · exact Or.inr (Or.inr (Or.inl h))
        · exact Or.inr (Or.inr (Or.inr
            ⟨List.mem_cons_of_mem _ (List.mem_cons_of_mem _ hmem), hh⟩))
    · rw [show goodArgs (t :: a :: rest) =
            (decide (pyStrip t ≠ "") && goodArgs (a :: rest)) from if_neg hpair,
          Bool.and_eq_true, decide_eq_true_eq] at hg
      obtain ⟨he, hgr⟩ := hg
      push_neg at hpair
      obtain ⟨ho, hf⟩ := hpair
      simp only [List.foldr_cons] at hx
      by_cases hc : pyStrip t = "-c"
      · rw [backStep_dash_c cpp _ hc] at hx
        rcases List.mem_cons.mp hx with rfl | hx
        · exact Or.inr (Or.inl rfl)
        · rcases ih2 hgr x hx with h | h | h | ⟨hmem, hh⟩
          · exact Or.inl h
          · exact Or.inr (Or.inl h)
          · exact Or.inr (Or.inr (Or.inl h))
          · exact Or.inr (Or.inr (Or.inr ⟨List.mem_cons_of_mem _ hmem, hh⟩))
      · by_cases hm : pyStrip t ∈ depFlags0
        · rw [backStep_dep0 cpp _ hm] at hx
          rcases ih2 hgr x hx with h | h | h | ⟨hmem, hh⟩
          · exact Or.inl h
          · exact Or.inr (Or.inl h)
          · exact Or.inr (Or.inr (Or.inl h))
          · exact Or.inr (Or.inr (Or.inr ⟨List.mem_cons_of_mem _ hmem, hh⟩))
        · have hp : plainTok t = true := by
            simp [plainTok, he, hc, ho, hm, hf]
          rw [backStep_plain cpp _ hp] at hx
          rcases List.mem_cons.mp hx with rfl | hx
          · exact Or.inr (Or.inr (Or.inr ⟨List.mem_cons_self x _, hm, hf, hc⟩))
          · rcases ih2 hgr x hx with h | h | h | ⟨hmem, hh⟩
            · exact Or.inl h
            · exact Or.inr (Or.inl h)
            · exact Or.inr (Or.inr (Or.inl h))
            · exact Or.inr (Or.inr (Or.inr ⟨List.mem_cons_of_mem _ hmem, hh⟩))

/-- Under `goodArgs`, every `-c` token is rewritten to `-E` and survives
to the output of the fold. -/
theorem foldr_E (cpp : String) (S : List String) :
    ∀ args : List String, goodArgs args = true → "-c" ∈ args →
      "-E" ∈ args.foldr (backStep cpp) S := by
  refine pairRec ?_ ?_ ?_
  · intro _ hmem
    exact absurd hmem (List.not_mem_nil _)
  · intro t hg hmem
    rw [List.mem_singleton] at hmem
    subst hmem
    simp only [List.foldr_cons, List.foldr_nil]
    rw [backStep_dash_c cpp S (by decide)]
    exact List.mem_cons_self _ _
  · intro t a rest ih1 ih2 hg hmem
    by_cases hpair : pyStrip t = "-o" ∨ pyStrip t ∈ depFlags1
    · rw [show goodArgs (t :: a :: rest) = (plainTok a && goodArgs rest) from
          if_pos hpair, Bool.and_eq_true] at hg
      obtain ⟨hpa, hgr⟩ := hg
      have hta : t ≠ "-c" := by
        intro h
        subst h
        rcases hpair with h | h
        · exact absurd h (by decide)
        · exact absurd h (by decide)
      have haa : a ≠ "-c" := by
        intro h
        subst h
        simp only [plainTok, decide_eq_true_eq] at hpa
        exact hpa.2.1 rfl
      have hrest : "-c" ∈ rest := by
        rcases List.mem_cons.mp hmem with h | h
        · exact absurd h.symm hta
        · rcases List.mem_cons.mp h with h2 | h2
          · exact absurd h2.symm haa
          · exact h2
      simp only [List.foldr_cons]
      rw [backStep_plain cpp _ hpa]
      rcases hpair with ho | hf
      · rw [backStep_dash_o cpp a _ ho]
        exact List.mem_cons_of_mem _ (List.mem_cons_of_mem _ (ih1 hgr hrest))
      · rw [backStep_dep1 cpp a _ hf]
        exact ih1 hgr hrest
    · rw [show goodArgs (t :: a :: rest) =
            (decide (pyStrip t ≠ "") && goodArgs (a :: rest)) from if_neg hpair,
          Bool.and_eq_true, decide_eq_true_eq] at hg
      obtain ⟨he, hgr⟩ := hg
      push_neg at hpair
      obtain ⟨ho, hf⟩ := hpair
      simp only [List.foldr_cons]
      by_cases hc : pyStrip t = "-c"
      · rw [backStep_dash_c cpp _ hc]
        exact List.mem_cons_self _ _
      · have hrest : "-c" ∈ a :: rest := by
          rcases List.mem_cons.mp hmem with h | h
          · exact absurd (h ▸ rfl) hc
          · exact h
        have hres := ih2 hgr hrest
        simp only [List.foldr_cons] at hres
        by_cases hm : pyStrip t ∈ depFlags0
        · rw [backStep_dep0 cpp _ hm]
          exact hres
        · have hp : plainTok t = true := by
            simp [plainTok, he, hc, ho, hm, hf]
          rw [backStep_plain cpp _ hp]
          exact List.mem_cons_of_mem _ hres

/-- Under `goodArgs`, a literal `-o` token survives with its following
argument replaced by the scratch path, adjacently. -/
theorem foldr_o (cpp : String) (S : List String) :
    ∀ args : List String, goodArgs args = true → "-o" ∈ args →
      ∃ l₁ l₂, args.foldr (backStep cpp) S = l₁ ++ "-o" :: cpp :: l₂ := by
  refine pairRec ?_ ?_ ?_
  · intro _ hmem
    exact absurd hmem (List.not_mem_nil _)
  · intro t hg hmem
    rw [List.mem_singleton] at hmem
    subst hmem
    simp only [goodArgs, decide_eq_true_eq] at hg
    exact absurd rfl hg.1
  · intro t a rest ih1 ih2 hg hmem
    by_cases hpair : pyStrip t = "-o" ∨ pyStrip t ∈ depFlags1
    · rw [show goodArgs (t :: a :: rest) = (plainTok a && goodArgs rest) from
          if_pos hpair, Bool.and_eq_true] at hg
      obtain ⟨hpa, hgr⟩ := hg
      have haa : a ≠ "-o" := by
        intro h
        subst h
        simp only [plainTok, decide_eq_true_eq] at hpa
        exact hpa.2.2.1 rfl
      simp only [List.foldr_cons]
      rw [backStep_plain cpp _ hpa]
      rcases hpair with ho | hf
      · rw [backStep_dash_o cpp a _ ho]
        by_cases hto : t = "-o"
        · subst hto
          exact ⟨[], List.foldr (backStep cpp) S rest, rfl⟩
        · have hrest : "-o" ∈ rest := by
            rcases List.mem_cons.mp hmem with h | h
            · exact absurd h.symm hto
            · rcases List.mem_cons.mp h with h2 | h2
              · exact absurd h2.symm haa
              · exact h2
          obtain ⟨l₁, l₂, hl⟩ := ih1 hgr hrest
          exact ⟨t :: cpp :: l₁, l₂, by rw [hl]; simp⟩
      · rw [backStep_dep1 cpp a _ hf]
        have hto : t ≠ "-o" := by
          intro h
          subst h
          exact absurd hf (by decide)
        have hrest : "-o" ∈ rest := by
          rcases List.mem_cons.mp hmem with h | h
          · exact absurd h.symm hto
          · rcases List.mem_cons.mp h with h2 | h2
            · exact absurd h2.symm haa
            · exact h2
        exact ih1 hgr hrest
    · rw [show goodArgs (t :: a :: rest) =
            (decide (pyStrip t ≠ "") && goodArgs (a :: rest)) from if_neg hpair,
          Bool.and_eq_true, decide_eq_true_eq] at hg
      obtain ⟨he, hgr⟩ := hg
      push_neg at hpair
      obtain ⟨ho, hf⟩ := hpair
      have hto : t ≠ "-o" := by
        intro h
        subst h
        exact absurd rfl ho
      have hrest : "-o" ∈ a :: rest := by
        rcases List.mem_cons.mp hmem with h | h
        · exact absurd h.symm hto
        · exact h
      obtain ⟨l₁, l₂, hl⟩ := ih2 hgr hrest
      simp only [List.foldr_cons] at hl ⊢
      by_cases hc : pyStrip t = "-c"
      · rw [backStep_dash_c cpp _ hc, hl]
        exact ⟨"-E" :: l₁, l₂, rfl⟩
      · by_cases hm : pyStrip t ∈ depFlags0
        · rw [backStep_dep0 cpp _ hm, hl]
          exact ⟨l₁, l₂, rfl⟩
        · have hp : plainTok t = true := by
            simp [plainTok, he, hc, ho, hm, hf]
          rw [backStep_plain cpp _ hp, hl]
          exact ⟨t :: l₁, l₂, rfl⟩

/-! ## Header Trace Parser (inside `gcc_preprocess_file`, ccperf.py lines 78-88)

The captured compiler output is split on newlines; a line matching the
regular expression `^\.+ ` (anchored match: one or more periods, then a
space) denotes an included header.  The path is the remainder of the line
after the first space, stripped; a relative path is made absolute against
the unit's working directory.  The accumulated list is deduplicated via
`list(set(...))`, whose ordering Python leaves unspecified; the model uses
`List.dedup`, which has the same membership and no duplicates. -/

/-- Does the line match `re.compile('^\.+ ').match(line)`: a maximal run
of `k ≥ 1` leading periods followed by a space?  (The regex matches iff
some positive run of periods is followed by a space; since a failed
continuation can only backtrack onto another period, this is equivalent to
testing the maximal run.) -/
def headerLineMatch (line : String) : Bool :=
  decide (0 < (line.data.takeWhile (fun c => c = '.')).length) &&
    decide ((line.data.drop
      (line.data.takeWhile (fun c => c = '.')).length).head? = some ' ')

/-- `line[(line.index(' ') + 1):]`: the remainder of the line after the
first space (the empty string when there is no space, a case the source
only reaches for matching lines, which always contain one). -/
def afterFirstSpace (line : String) : String :=
  ⟨(line.data.dropWhile (fun c => !(c = ' '))).drop 1⟩

/-- Resolution of one parsed path (ccperf.py lines 85-86): keep absolute
paths, resolve relative ones against the unit's directory. -/
def resolveHeader (cwd dir f : String) : String :=
  if isabs f then f else abspath cwd (pyJoin dir f)

/-- The Header Trace Parser: the deduplicated list of header paths
extracted from the captured diagnostic text `res`. -/
def gccHeaderFiles (cwd dir res : String) : List String :=
  (((splitOnChar '\n' res).filter headerLineMatch).map
    (fun line => resolveHeader cwd dir (pyStrip (afterFirstSpace line)))).dedup

/-- Specification-side reading of the line pattern: «one or more leading
period characters followed by a space». -/
def SpecHeaderLine (line : String) : Prop :=
  ∃ n, 1 ≤ n ∧ line.data.take n = List.replicate n '.' ∧
    (line.data.drop n).head? = some ' '

/-- Specification-side description of the parser's output as a set: `p` is
produced iff some line of the trace matches the pattern and resolves to
`p` («the remainder of the line after the first space with
leading/trailing whitespace trimmed, relative paths resolved against the
working directory»). -/
def SpecHeaderPath (cwd dir res p : String) : Prop :=
  ∃ line ∈ splitOnChar '\n' res, SpecHeaderLine line ∧
    p = resolveHeader cwd dir (pyStrip (afterFirstSpace line))

theorem takeWhile_dots (l : List Char) :
    l.take (l.takeWhile (fun c => c = '.')).length =
        l.takeWhile (fun c => c = '.') ∧
      ∀ c ∈ l.takeWhile (fun c => c = '.'), c = '.' := by
  induction l with
  | nil => exact ⟨rfl, by intro c h; exact absurd h (List.not_mem_nil c)⟩
  | cons a l ih =>
    by_cases ha : a = '.'
    · subst ha
      refine ⟨?_, ?_⟩
      · simp only [List.takeWhile_cons, decide_true_eq_true]
        simp [List.take_succ_cons, ih.1]
      · intro c hc
        simp only [List.takeWhile_cons] at hc
        simp only [decide_true_eq_true, if_true] at hc
        rcases List.mem_cons.mp hc with rfl | hc
        · rfl
        · exact ih.2 c hc
    · have : (a :: l).takeWhile (fun c => c = '.') = [] := by
        simp [List.takeWhile_cons, ha]
      rw [this]
      exact ⟨rfl, by intro c h; exact absurd h (List.not_mem_nil c)⟩

theorem takeWhile_of_take_replicate (n : Nat) :
    ∀ l : List Char, l.take n = List.replicate n '.' →
      (l.drop n).head? = some ' ' →
      l.takeWhile (fun c => c = '.') = List.replicate n '.' := by
  induction n with
  | zero =>
    intro l _ hd
    simp only [List.drop_zero] at hd
    cases l with
    | nil => simp at hd
    | cons c t =>
      simp only [List.head?_cons, Option.some.injEq] at hd
      subst hd
      simp [List.takeWhile_cons]
  | succ n ih =>
    intro l ht hd
    cases l with
    | nil => simp at ht
    | cons c l' =>
      simp only [List.take_succ_cons, List.replicate_succ, List.cons.injEq] at ht
      obtain ⟨rfl, ht'⟩ := ht
      simp only [List.drop_succ_cons] at hd
      simp [List.takeWhile_cons, List.replicate_succ, ih l' ht' hd]

/-- The executable line test agrees with the specification's pattern. -/
theorem headerLineMatch_iff (line : String) :
    headerLineMatch line = true ↔ SpecHeaderLine line := by
  unfold headerLineMatch SpecHeaderLine
  rw [Bool.and_eq_true, decide_eq_true_eq, decide_eq_true_eq]
  constructor
  · rintro ⟨hlen, hhead⟩
    obtain ⟨htake, hall⟩ := takeWhile_dots line.data
    refine ⟨(line.data.takeWhile (fun c => c = '.')).length, hlen, ?_, hhead⟩
    rw [htake]
    have := List.eq_replicate_of_mem hall
    rw [← this]
  · rintro ⟨n, hn, ht, hd⟩
    have htw := takeWhile_of_take_replicate n line.data ht hd
    rw [htw, List.length_replicate]
    exact ⟨hn, hd⟩

/-! ## Preprocessing Executor and Per-Unit Metrics Collector
(ccperf.py lines 38-39, 42-105, 108-112, 135-137, 140-173) -/

/-- Python exceptions that the model distinguishes. -/
inductive PyError where
  /-- e.g. calling a function with the wrong number of arguments -/
  | typeError
  /-- e.g. a `shlex` parse failure -/
  | valueError
deriving DecidableEq, Repr

/-- Outcome of the external compiler invocation
`subprocess.check_output(opts, stderr=STDOUT, cwd=dir)` together with the
subsequent reads of the scratch file: on success the captured combined
output text, the scratch file's size and line count (`os.stat` /
`count_lines`), and the elapsed wall-clock time; `failure` covers a
nonzero exit status, a spawn failure, and a missing scratch file. -/
inductive PPOutcome where
  | success (output : String) (size numLines : Int) (time : ℚ)
  | failure
deriving DecidableEq, Repr

/-- The dictionary returned by the preprocessing functions:
`{bytes, lines, header_files, time}`. -/
structure PPResult where
  bytes : Int
  lines : Int
  header_files : List String
  time : ℚ
deriving DecidableEq, Repr

/-- `dummy_preprocess_file(cmd, dir)` (ccperf.py lines 38-39): the
zero-valued result for units whose compiler family is not supported. -/
def dummy_preprocess_file (cmd dir : String) : PPResult :=
  { bytes := 0, lines := 0, header_files := [], time := 0 }

/-- `gcc_preprocess_file(cmd, dir)` (ccperf.py lines 42-105), parameterized
by the scratch-file path `cppFile` produced by `tempfile.mkstemp`, the
process working directory `cwd`, and the invocation outcome.

On an invocation error the `except` handler at lines 95-97 prints a
diagnostic and then executes `result = dummy_preprocess_file()` — a call
with zero arguments to a function whose definition at line 38 requires the
two positional arguments `(cmd, dir)`.  That call raises `TypeError`,
which (after the `finally` cleanup) propagates out of the function; the
model therefore returns `Except.error PyError.typeError` on the failure
path. -/
def gcc_preprocess_file (cppFile cwd cmd dir : String) (outcome : PPOutcome) :
    Except PyError PPResult :=
  match shlexSplit cmd with
  | .error _ => .error .valueError
  | .ok opts =>
    let _transformed := gccTransformTokens cppFile opts
    match outcome with
    | .success output size numLines time =>
      .ok { bytes := size, lines := numLines,
            header_files := gccHeaderFiles cwd dir output, time := time }
    | .failure => .error .typeError

/-- `preprocess_file(cmd, dir)` (ccperf.py lines 108-112). -/
def preprocess_file (cppFile cwd cmd dir : String) (outcome : PPOutcome) :
    Except PyError PPResult :=
  if is_gcc_command cmd then gcc_preprocess_file cppFile cwd cmd dir outcome
  else .ok (dummy_preprocess_file cmd dir)

/-- `is_system_header(file_name)` (ccperf.py lines 135-137). -/
def is_system_header (file_name : String) : Bool :=
  strStartsWith file_name "/usr/" || strStartsWith file_name "/System/"

/-- The header-counting loop of `collect_metrics` (ccperf.py lines 157-163):
`headers_all` counts every entry, `headers_sys` those classified as system
headers. -/
def countHeaders (hs : List String) : Int × Int :=
  hs.foldl
    (fun p h => (p.1 + 1, if is_system_header h then p.2 + 1 else p.2))
    (0, 0)

/-- One Metric Record (the dictionary built at ccperf.py lines 165-173). -/
structure MetricRecord where
  file : String
  headers_all : Int
  headers_sys : Int
  bytes : Int
  bytes_pp : Int
  lines : Int
  lines_pp : Int
  time_pp : ℚ
  time_run : ℚ
deriving DecidableEq, Repr

/-- Everything outside the model that one `collect_metrics` call observes:
the compile-database triple, the `os.stat`/`count_lines` data of the
original source (assumed readable), the preprocessing outcome, the
measured full-build time, the scratch path of this worker, and the process
working directory. -/
structure UnitCtx where
  directory : String
  file : String
  command : String
  srcBytes : Int
  srcLines : Int
  ppOutcome : PPOutcome
  do_run : Bool
  runTime : ℚ
  cwd : String
  cppFile : String
deriving DecidableEq, Repr

/-- `collect_metrics(dir, file, command, do_run_command)`
(ccperf.py lines 140-173): resolve the absolute source path, take the
original size, preprocess, optionally run the original command
(`run_cmd` measures a duration and swallows failures), count headers, and
assemble the Metric Record.  An exception of a sub-step propagates. -/
def collect_metrics (u : UnitCtx) : Except PyError MetricRecord :=
  let src_file := abspath u.cwd (pyJoin u.directory u.file)
  match preprocess_file u.cppFile u.cwd u.command u.directory u.ppOutcome with
  | .error e => .error e
  | .ok pp =>
    let run_time : ℚ := if u.do_run then u.runTime else 0
    let counts := countHeaders pp.header_files
    .ok { file := src_file,
          headers_all := counts.1,
          headers_sys := counts.2,
          bytes := u.srcBytes,
          bytes_pp := pp.bytes,
          lines := u.srcLines,
          lines_pp := pp.lines,
          time_pp := pp.time,
          time_run := run_time }

/-! ## Concurrent Orchestrator (`record`, ccperf.py lines 176-205)

`record` submits one `collect_metrics` task per compile-database entry to
a thread pool, keeps the futures in submission order in `results`, and
then walks `results` in that order: a successful future's record is
appended to `record_db`, a raising future is logged
(`'*** Exception: ...'`) and skipped. -/

/-- The harvesting loop of `record` (ccperf.py lines 196-200) applied to
the per-unit outcomes in submission order. -/
def recordDb (db : List UnitCtx) : List MetricRecord :=
  db.foldl
    (fun acc u =>
      match collect_metrics u with
      | .ok r => acc ++ [r]
      | .error _ => acc)
    []

/-- How many units make the harvesting loop print its
`'*** Exception: ...'` diagnostic (ccperf.py lines 199-200). -/
def numExceptionDiagnostics (db : List UnitCtx) : Nat :=
  (db.filter
    (fun u =>
      match collect_metrics u with
      | .error _ => true
      | .ok _ => false)).length

/-- A command string on which `shlex.split` raises (the «malformed
command» of the specification). -/
def malformedCommand (cmd : String) : Bool :=
  match shlexSplit cmd with
  | .error _ => true
  | .ok _ => false

/-! ### The thread-pool view of the harvesting loop

The pool may *complete* tasks in any order; `record` stores the futures in
submission order and calls `future.result()` on each in that order.  A
completion log assigns each submitted index its outcome; harvesting reads
the log in submission order. -/

/-- Harvest results in submission order (`for future in results: ...`),
given a completion log mapping submission index to outcome. -/
def harvestLog (n : Nat)
    (log : List (Nat × Except PyError MetricRecord)) : List MetricRecord :=
  (List.range n).foldl
    (fun acc i =>
      match log.lookup i with
      | some (.ok r) => acc ++ [r]
      | _ => acc)
    []

/-! ## Fatal input checks (ccperf.py lines 180-183 and 209-212)

Both checks print a guidance message to stderr and call `sys.exit()`
*with no argument*: Python raises `SystemExit(None)`, and the interpreter
maps a `None` code to process exit status `0`. -/

/-- The process exit status produced by a bare `sys.exit()`. -/
def sysExitNoArgStatus : Nat := 0

/-- The compile-database check at the start of `record` (lines 180-183):
when `compile_commands.json` is not a file, print guidance and exit.
Returns `some (exit status, message)` when the process terminates. -/
def record_missing_compile_db (compile_db_isfile : Bool) :
    Option (Nat × String) :=
  if !compile_db_isfile then
    some (sysExitNoArgStatus,
      "Could not find compile_commands.json in the current directory.")
  else none

/-- The record-store check at the start of `load_info_db` (lines 209-212). -/
def load_info_db_missing (info_db_isfile : Bool) : Option (Nat × String) :=
  if !info_db_isfile then
    some (sysExitNoArgStatus,
      "Could not find .ccperf in the current directory. Please use --record.")
  else none

/-! ## Record Store (ccperf.py lines 202-205 and 207-218)

`record` writes the record list with
`json.dump(record_db, file, sort_keys=True, indent=2, separators=(',', ': '))`
and `load_info_db` reads it back with `json.loads(file.read())`.

The JSON values exchanged are modelled by the AST `JVal`; the Python
`json` library's text encoding/decoding of such values (strings, ints,
floats, lists, objects) is a faithful round trip and is modelled as the
identity on this AST.  What the repository itself contributes — which
fields are written, the sorted key order, and the fact that loading parses
and returns the stored values without recomputing anything — is modelled
explicitly below. -/

/-- JSON values as handled by `json.dump`/`json.loads` for this program:
strings, ints, floats (modelled as `ℚ`), arrays and objects. -/
inductive JVal where
  | jstr : String → JVal
  | jint : Int → JVal
  | jnum : ℚ → JVal
  | jarr : List JVal → JVal
  | jobj : List (String × JVal) → JVal

/-- Serialization of one Metric Record: the dictionary of ccperf.py
lines 165-173 with its keys in the sorted order that
`json.dump(..., sort_keys=True)` writes. -/
def encodeRecord (r : MetricRecord) : JVal :=
  .jobj [("bytes", .jint r.bytes),
         ("bytes_pp", .jint r.bytes_pp),
         ("file", .jstr r.file),
         ("headers_all", .jint r.headers_all),
         ("headers_sys", .jint r.headers_sys),
         ("lines", .jint r.lines),
         ("lines_pp", .jint r.lines_pp),
         ("time_pp", .jnum r.time_pp),
         ("time_run", .jnum r.time_run)]

/-- `record`'s final write (lines 202-205): the serialized Record
Database. -/
def save_record_db (db : List MetricRecord) : JVal :=
  .jarr (db.map encodeRecord)

def jStrField : Option JVal → Option String
  | some (.jstr s) => some s
  | _ => none

def jIntField : Option JVal → Option Int
  | some (.jint n) => some n
  | _ => none

def jNumField : Option JVal → Option ℚ
  | some (.jnum q) => some q
  | _ => none

/-- Reading one record back: the loaded dictionary's fields, taken
verbatim (nothing is recomputed on load). -/
def decodeRecord (j : JVal) : Option MetricRecord :=
  match j with
  | .jobj kvs =>
    match jStrField (kvs.lookup "file"),
        jIntField (kvs.lookup "headers_all"),
        jIntField (kvs.lookup "headers_sys"),
        jIntField (kvs.lookup "bytes"),
        jIntField (kvs.lookup "bytes_pp"),
        jIntField (kvs.lookup "lines"),
        jIntField (kvs.lookup "lines_pp"),
        jNumField (kvs.lookup "time_pp"),
        jNumField (kvs.lookup "time_run") with
    | some file, some ha, some hs, some b, some bp, some l, some lp,
        some tp, some tr =>
      some { file := file, headers_all := ha, headers_sys := hs,
             bytes := b, bytes_pp := bp, lines := l, lines_pp := lp,
             time_pp := tp, time_run := tr }
    | _, _, _, _, _, _, _, _, _ => none
  | _ => none

def decodeRecordList : List JVal → Option (List MetricRecord)
  | [] => some []
  | j :: js =>
    match decodeRecord j, decodeRecordList js with
    | some r, some rs => some (r :: rs)
    | _, _ => none

/-- `load_info_db`'s read (lines 214-218): parse the stored value back
into the record list. -/
def load_record_db (j : JVal) : Option (List MetricRecord) :=
  match j with
  | .jarr js => decodeRecordList js
  | _ => none

/-! ## Reporter (`generate_csv`, ccperf.py lines 221-237) -/

/-- The header row printed at ccperf.py line 226. -/
def csvHeaderRow : String :=
  "File\tHeaders (all)\tSystem headers\tBytes\tLines\tBytes preproc.\tLines preproc.\tTime preproc.\tTime run"

/-- Python `'%s' % n` for an int. -/
def pyStrInt (n : Int) : String := toString n

/-- Python `'%s' % t` for a duration.  (The decimal rendering of a float
is not modelled digit-for-digit; the Reporter claims under test concern
the field order and tab separation, which are independent of it.) -/
def pyStrTime (q : ℚ) : String := toString q

/-- The row format string of ccperf.py lines 228-237:
`'%s\t%s\t%s\t%s\t%s\t%s\t%s\t%s\t%s' % (file, headers_all, headers_sys,
bytes, lines, bytes_pp, lines_pp, time_pp, time_run)`. -/
def csvRow (r : MetricRecord) : String :=
  r.file ++ "\t" ++ pyStrInt r.headers_all ++ "\t" ++ pyStrInt r.headers_sys
    ++ "\t" ++ pyStrInt r.bytes ++ "\t" ++ pyStrInt r.lines ++ "\t"
    ++ pyStrInt r.bytes_pp ++ "\t" ++ pyStrInt r.lines_pp ++ "\t"
    ++ pyStrTime r.time_pp ++ "\t" ++ pyStrTime r.time_run

/-- `generate_csv` as the sequence of lines it prints: the header row,
then one row per record in database order. -/
def generate_csv (db : List MetricRecord) : List String :=
  csvHeaderRow :: db.map csvRow

/-- Joining fields with tab separators («tab-separated»), used for the
specification-side row descriptions. -/
def tabJoin : List String → String
  | [] => ""
  | [x] => x
  | x :: xs => x ++ "\t" ++ tabJoin xs

/-- The data row in the field order that §3 of the specification lists:
file, bytes, lines, bytes_pp, lines_pp, headers_all, headers_sys,
time_pp, time_run. -/
def specRowSection3 (r : MetricRecord) : String :=
  tabJoin [r.file, pyStrInt r.bytes, pyStrInt r.lines, pyStrInt r.bytes_pp,
    pyStrInt r.lines_pp, pyStrInt r.headers_all, pyStrInt r.headers_sys,
    pyStrTime r.time_pp, pyStrTime r.time_run]

/-- The data row in the order the code actually prints. -/
def specRowActual (r : MetricRecord) : String :=
  tabJoin [r.file, pyStrInt r.headers_all, pyStrInt r.headers_sys,
    pyStrInt r.bytes, pyStrInt r.lines, pyStrInt r.bytes_pp,
    pyStrInt r.lines_pp, pyStrTime r.time_pp, pyStrTime r.time_run]

/-! ## Claims -/

theorem countHeaders_foldl_le (hs : List String) :
    ∀ p : Int × Int, p.2 ≤ p.1 →
      (hs.foldl
        (fun p h => (p.1 + 1, if is_system_header h then p.2 + 1 else p.2))
        p).2 ≤
      (hs.foldl
        (fun p h => (p.1 + 1, if is_system_header h then p.2 + 1 else p.2))
        p).1 := by
  induction hs with
  | nil => intro p hp; exact hp
  | cons h hs ih =>
    intro p hp
    simp only [List.foldl_cons]
    refine ih _ ?_
    by_cases hs' : is_system_header h = true
    · simp only [hs', if_true]
      omega
    · simp only [hs', if_false]
      omega

theorem countHeaders_le (hs : List String) :
    (countHeaders hs).2 ≤ (countHeaders hs).1 :=
  countHeaders_foldl_le hs (0, 0) le_rfl

/-- C9: every Metric Record produced by `collect_metrics` satisfies
`headers_sys ≤ headers_all`, whatever the input unit and preprocessing
outcome (measured, dummy, or degraded). -/
theorem C9_headers_sys_le_headers_all (u : UnitCtx) (r : MetricRecord)
    (h : collect_metrics u = .ok r) : r.headers_sys ≤ r.headers_all := by
  unfold collect_metrics at h
  cases hp : preprocess_file u.cppFile u.cwd u.command u.directory u.ppOutcome with
  | error e =>
    rw [hp] at h
    exact absurd h (by simp)
  | ok pp =>
    rw [hp] at h
    simp only [Except.ok.injEq] at h
    subst h
    exact countHeaders_le pp.header_files

theorem C9_witness :
    collect_metrics
        { directory := "/proj", file := "a.c",
          command := "gcc -c a.c -o a.o", srcBytes := 20, srcLines := 3,
          ppOutcome := .success ". /usr/include/a.h\n. hdr.h\njunk" 100 7 0,
          do_run := false, runTime := 0,
          cwd := "/cwd", cppFile := "/tmp/ccperf9.i" } =
      .ok { file := "/proj/a.c", headers_all := 2, headers_sys := 1,
            bytes := 20, bytes_pp := 100, lines := 3, lines_pp := 7,
            time_pp := 0, time_run := 0 } ∧
    (1 : Int) ≤ 2 :=
  ⟨rfl,
   C9_headers_sys_le_headers_all
     { directory := "/proj", file := "a.c",
       command := "gcc -c a.c -o a.o", srcBytes := 20, srcLines := 3,
       ppOutcome := .success ". /usr/include/a.h\n. hdr.h\njunk" 100 7 0,
       do_run := false, runTime := 0,
       cwd := "/cwd", cppFile := "/tmp/ccperf9.i" }
     { file := "/proj/a.c", headers_all := 2, headers_sys := 1,
       bytes := 20, bytes_pp := 100, lines := 3, lines_pp := 7,
       time_pp := 0, time_run := 0 } rfl⟩

/-- C10: on every command string on which `shlex.split` raises (or which
produces no tokens at all, as the empty string does), the Compiler
Classifier returns `false` without raising, and `preprocess_file` routes
the unit to the dummy zero-valued preprocessing result. -/
theorem C10_classifier_safe (cmd cppFile cwd dir : String)
    (outcome : PPOutcome)
    (h : (∃ e, shlexSplit cmd = .error e) ∨ shlexSplit cmd = .ok []) :
    is_gcc_command cmd = false ∧
      preprocess_file cppFile cwd cmd dir outcome =
        .ok (dummy_preprocess_file cmd dir) := by
  have hfalse : is_gcc_command cmd = false := by
    unfold is_gcc_command
    rcases h with ⟨e, he⟩ | he <;> rw [he]
  refine ⟨hfalse, ?_⟩
  unfold preprocess_file
  rw [hfalse]
  simp

theorem C10_witness :
    (is_gcc_command "'" = false ∧
      preprocess_file "/tmp/ccperf10.i" "/cwd" "'" "/proj" .failure =
        .ok (dummy_preprocess_file "'" "/proj")) ∧
    (is_gcc_command "" = false ∧
      preprocess_file "/tmp/ccperf10.i" "/cwd" "" "/proj" .failure =
        .ok (dummy_preprocess_file "" "/proj")) :=
  ⟨C10_classifier_safe "'" "/tmp/ccperf10.i" "/cwd" "/proj" .failure
     (Or.inl ⟨ShlexErr.noClosingQuote, rfl⟩),
   C10_classifier_safe "" "/tmp/ccperf10.i" "/cwd" "/proj" .failure
     (Or.inr rfl)⟩

/-- C1: the claim says a failed preprocessing invocation yields the
zero-valued result and only a recoverable per-unit failure, so the unit
still gets a Metric Record.  In the code, the `except` handler at
ccperf.py line 97 executes `result = dummy_preprocess_file()` — calling
the two-parameter function of line 38 with no arguments — which raises
`TypeError`; the exception escalates out of `gcc_preprocess_file`,
`collect_metrics` fails, and the harvesting loop of `record` drops the
unit's record.  This theorem evaluates the embedded code at such a
failing input: a supported compiler command whose invocation fails. -/
theorem C1_preprocess_failure_escalates :
    is_gcc_command "gcc -c a.c -o a.o" = true ∧
    gcc_preprocess_file "/tmp/ccperf1.i" "/cwd" "gcc -c a.c -o a.o" "/proj"
        .failure = .error .typeError ∧
    recordDb
        [{ directory := "/proj", file := "a.c",
           command := "gcc -c a.c -o a.o", srcBytes := 10, srcLines := 2,
           ppOutcome := .failure, do_run := false, runTime := 0,
           cwd := "/cwd", cppFile := "/tmp/ccperf1.i" }] = [] :=
  ⟨by decide, rfl, rfl⟩

/-- A unit whose command cannot be tokenized is classified as unsupported
(`is_gcc_command` returns `false` through its `except:` handler) and
therefore collects successfully with the dummy zero-valued preprocessing
result — it is *not* dropped. -/
theorem collect_metrics_malformed (u : UnitCtx)
    (h : malformedCommand u.command = true) :
    collect_metrics u =
      .ok { file := abspath u.cwd (pyJoin u.directory u.file),
            headers_all := 0, headers_sys := 0,
            bytes := u.srcBytes, bytes_pp := 0,
            lines := u.srcLines, lines_pp := 0,
            time_pp := 0,
            time_run := if u.do_run then u.runTime else 0 } := by
  obtain ⟨e, he⟩ : ∃ e, shlexSplit u.command = .error e := by
    unfold malformedCommand at h
    cases hs : shlexSplit u.command with
    | error e => exact ⟨e, rfl⟩
    | ok l => rw [hs] at h; simp at h
  have hig : is_gcc_command u.command = false := by
    unfold is_gcc_command
    rw [he]
  unfold collect_metrics preprocess_file
  rw [hig]
  simp [dummy_preprocess_file, countHeaders]

theorem recordDb_foldl_length (db : List UnitCtx) :
    ∀ acc : List MetricRecord,
      (∀ u ∈ db, ∃ r, collect_metrics u = .ok r) →
      (db.foldl
        (fun acc u =>
          match collect_metrics u with
          | .ok r => acc ++ [r]
          | .error _ => acc)
        acc).length = acc.length + db.length := by
  induction db with
  | nil => intro acc _; simp
  | cons u db ih =>
    intro acc h
    obtain ⟨r, hr⟩ := h u (List.mem_cons_self u db)
    simp only [List.foldl_cons, hr]
    rw [ih (acc ++ [r]) (fun v hv => h v (List.mem_cons_of_mem u hv))]
    simp only [List.length_append, List.length_cons, List.length_nil]
    omega

theorem recordDb_length (db : List UnitCtx)
    (h : ∀ u ∈ db, ∃ r, collect_metrics u = .ok r) :
    (recordDb db).length = db.length := by
  unfold recordDb
  simpa using recordDb_foldl_length db [] h

theorem numExceptionDiagnostics_zero (db : List UnitCtx)
    (h : ∀ u ∈ db, ∃ r, collect_metrics u = .ok r) :
    numExceptionDiagnostics db = 0 := by
  unfold numExceptionDiagnostics
  rw [List.length_eq_zero, List.filter_eq_nil_iff]
  intro u hu
  obtain ⟨r, hr⟩ := h u hu
  simp [hr]

/-- C2 (amended): for a compile database of `N` units of which `K` have a
malformed (untokenizable) command, provided the well-formed units collect
successfully, the Record Database has exactly `N` records — each malformed
unit contributes a record with zero-valued preprocessing metrics instead
of being dropped — the harvesting loop emits no per-unit exception
diagnostic, and no malformed unit aborts collection of the others. -/
theorem C2_amended (db : List UnitCtx)
    (h : ∀ u ∈ db,
      malformedCommand u.command = true ∨ ∃ r, collect_metrics u = .ok r) :
    (recordDb db).length = db.length ∧
    numExceptionDiagnostics db = 0 ∧
    ∀ u ∈ db, malformedCommand u.command = true →
      collect_metrics u =
        .ok { file := abspath u.cwd (pyJoin u.directory u.file),
              headers_all := 0, headers_sys := 0,
              bytes := u.srcBytes, bytes_pp := 0,
              lines := u.srcLines, lines_pp := 0,
              time_pp := 0,
              time_run := if u.do_run then u.runTime else 0 } := by
  have hall : ∀ u ∈ db, ∃ r, collect_metrics u = .ok r := by
    intro u hu
    rcases h u hu with hm | hok
    · exact ⟨_, collect_metrics_malformed u hm⟩
    · exact hok
  exact ⟨recordDb_length db hall, numExceptionDiagnostics_zero db hall,
    fun u _ hm => collect_metrics_malformed u hm⟩

/-- C2 counterexample: a compile database with `N = 1` unit whose command
is malformed (`K = 1`).  The claim predicts `N − K = 0` records; the code
produces `1` record (the dummy zero-valued one) and `0` diagnostics. -/
theorem C2_counterexample :
    malformedCommand "'" = true ∧
    (recordDb
      [{ directory := "/proj", file := "a.c", command := "'",
         srcBytes := 10, srcLines := 2, ppOutcome := .failure,
         do_run := false, runTime := 0,
         cwd := "/cwd", cppFile := "/tmp/ccperf2.i" }]).length = 1 ∧
    numExceptionDiagnostics
      [{ directory := "/proj", file := "a.c", command := "'",
         srcBytes := 10, srcLines := 2, ppOutcome := .failure,
         do_run := false, runTime := 0,
         cwd := "/cwd", cppFile := "/tmp/ccperf2.i" }] = 0 ∧
    (1 : Nat) ≠ 1 - 1 :=
  ⟨rfl, rfl, rfl, by decide⟩

theorem C2_witness :
    (recordDb
      [{ directory := "/proj", file := "b.c", command := "cc b.c",
         srcBytes := 5, srcLines := 1, ppOutcome := .failure,
         do_run := false, runTime := 0,
         cwd := "/cwd", cppFile := "/tmp/ccperf2w.i" },
       { directory := "/proj", file := "a.c", command := "'",
         srcBytes := 10, srcLines := 2, ppOutcome := .failure,
         do_run := false, runTime := 0,
         cwd := "/cwd", cppFile := "/tmp/ccperf2w.i" }]).length = 2 ∧
    numExceptionDiagnostics
      [{ directory := "/proj", file := "b.c", command := "cc b.c",
         srcBytes := 5, srcLines := 1, ppOutcome := .failure,
         do_run := false, runTime := 0,
         cwd := "/cwd", cppFile := "/tmp/ccperf2w.i" },
       { directory := "/proj", file := "a.c", command := "'",
         srcBytes := 10, srcLines := 2, ppOutcome := .failure,
         do_run := false, runTime := 0,
         cwd := "/cwd", cppFile := "/tmp/ccperf2w.i" }] = 0 ∧
    ∀ u ∈ [({ directory := "/proj", file := "b.c", command := "cc b.c",
              srcBytes := 5, srcLines := 1, ppOutcome := .failure,
              do_run := false, runTime := 0,
              cwd := "/cwd", cppFile := "/tmp/ccperf2w.i" } : UnitCtx),
            { directory := "/proj", file := "a.c", command := "'",
              srcBytes := 10, srcLines := 2, ppOutcome := .failure,
              do_run := false, runTime := 0,
              cwd := "/cwd", cppFile := "/tmp/ccperf2w.i" }],
      malformedCommand u.command = true →
      collect_metrics u =
        .ok { file := abspath u.cwd (pyJoin u.directory u.file),
              headers_all := 0, headers_sys := 0,
              bytes := u.srcBytes, bytes_pp := 0,
              lines := u.srcLines, lines_pp := 0,
              time_pp := 0,
              time_run := if u.do_run then u.runTime else 0 } :=
  C2_amended _ (by
    intro u hu
    rcases List.mem_cons.mp hu with rfl | hu2
    · exact Or.inr ⟨_, rfl⟩
    · rcases List.mem_cons.mp hu2 with rfl | hu3
      · exact Or.inl rfl
      · exact absurd hu3 (List.not_mem_nil u))

/-- C3 counterexample: with the compile database missing (record mode) or
the record store missing (report mode), the program prints guidance and
terminates via `sys.exit()` with *no* argument, so the process exit
status is `0`, not the non-zero status the claim asserts. -/
theorem C3_counterexample :
    record_missing_compile_db false =
      some (0,
        "Could not find compile_commands.json in the current directory.") ∧
    load_info_db_missing false =
      some (0,
        "Could not find .ccperf in the current directory. Please use --record.") ∧
    ¬((0 : Nat) ≠ 0) :=
  ⟨rfl, rfl, fun h => h rfl⟩

/-- C3 (amended): when the compile database is missing in record mode, or
the persisted record store is missing in report mode, the program reports
a guidance message and terminates the whole process — but with exit
status `0` (a bare `sys.exit()`), not a non-zero status; when the file is
present, the run continues. -/
theorem C3_amended :
    record_missing_compile_db false =
      some (sysExitNoArgStatus,
        "Could not find compile_commands.json in the current directory.") ∧
    load_info_db_missing false =
      some (sysExitNoArgStatus,
        "Could not find .ccperf in the current directory. Please use --record.") ∧
    record_missing_compile_db true = none ∧
    load_info_db_missing true = none ∧
    sysExitNoArgStatus = 0 :=
  ⟨rfl, rfl, rfl, rfl, rfl⟩

theorem csvRow_eq_specRowActual (r : MetricRecord) :
    csvRow r = specRowActual r := by
  simp [csvRow, specRowActual, tabJoin, String.append_assoc]

/-- C4 (amended): the Reporter emits the header row followed by exactly
one tab-separated row per Metric Record in database order, with the
fields of each row in the order the code prints: file, headers_all,
headers_sys, bytes, lines, bytes_pp, lines_pp, time_pp, time_run; for an
empty database the output is exactly the header row. -/
theorem C4_reporter_rows (db : List MetricRecord) :
    generate_csv db = csvHeaderRow :: db.map specRowActual ∧
      generate_csv [] = [csvHeaderRow] := by
  refine ⟨?_, rfl⟩
  unfold generate_csv
  rw [funext csvRow_eq_specRowActual]

/-- C4 counterexample: the claim's row order (the §3 field listing:
file, bytes, lines, bytes_pp, lines_pp, headers_all, headers_sys,
time_pp, time_run) is not what the Reporter prints — the code puts the
header counts right after the file name.  At a record whose field values
are pairwise distinct the two rows differ. -/
theorem C4_counterexample :
    generate_csv
        [{ file := "a.c", headers_all := 1, headers_sys := 0,
           bytes := 2, bytes_pp := 4, lines := 3, lines_pp := 5,
           time_pp := 0, time_run := 0 }] ≠
      [csvHeaderRow,
       specRowSection3
         { file := "a.c", headers_all := 1, headers_sys := 0,
           bytes := 2, bytes_pp := 4, lines := 3, lines_pp := 5,
           time_pp := 0, time_run := 0 }] := by
  decide

/-- C6: for every captured diagnostic text and working directory, the
Header Trace Parser returns exactly the deduplicated set of header paths
described by the specification: one path per line matching «one or more
leading periods followed by a space», taken as the remainder of the line
after the first space with surrounding whitespace stripped, relative
paths resolved against the unit's working directory; non-matching lines
are ignored, and the result has no duplicates. -/
theorem C6_header_trace_membership (cwd dir res : String) :
    (gccHeaderFiles cwd dir res).Nodup ∧
      ∀ p, p ∈ gccHeaderFiles cwd dir res ↔ SpecHeaderPath cwd dir res p := by
  refine ⟨List.nodup_dedup _, fun p => ?_⟩
  unfold gccHeaderFiles SpecHeaderPath
  rw [List.mem_dedup, List.mem_map]
  constructor
  · rintro ⟨line, hline, rfl⟩
    rw [List.mem_filter] at hline
    exact ⟨line, hline.1, (headerLineMatch_iff line).mp hline.2, rfl⟩
  · rintro ⟨line, hmem, hmatch, rfl⟩
    exact ⟨line,
      List.mem_filter.mpr ⟨hmem, (headerLineMatch_iff line).mpr hmatch⟩, rfl⟩

theorem harvest_foldl_congr (log : List (Nat × Except PyError MetricRecord))
    (f : Nat → Except PyError MetricRecord) :
    ∀ l : List Nat, (∀ i ∈ l, log.lookup i = some (f i)) →
      ∀ acc : List MetricRecord,
        l.foldl
          (fun acc i =>
            match log.lookup i with
            | some (.ok r) => acc ++ [r]
            | _ => acc)
          acc =
        l.foldl
          (fun acc i =>
            match f i with
            | .ok r => acc ++ [r]
            | .error _ => acc)
          acc := by
  intro l
  induction l with
  | nil => intro _ _; rfl
  | cons i l ih =>
    intro h acc
    simp only [List.foldl_cons]
    rw [h i (List.mem_cons_self i l)]
    cases hf : f i with
    | ok r =>
      exact ih (fun j hj => h j (List.mem_cons_of_mem i hj)) (acc ++ [r])
    | error e =>
      exact ih (fun j hj => h j (List.mem_cons_of_mem i hj)) acc

/-- C7: the Orchestrator folds successful unit results into the Record
Database in submission order.  Any two completion logs that assign each
submitted index the same outcome — regardless of the order in which the
pool completed them — harvest to the same record sequence, namely the
fold of the outcomes over the submission indices in order. -/
theorem C7_submission_order (n : Nat)
    (f : Nat → Except PyError MetricRecord)
    (log₁ log₂ : List (Nat × Except PyError MetricRecord))
    (h₁ : ∀ i, i < n → log₁.lookup i = some (f i))
    (h₂ : ∀ i, i < n → log₂.lookup i = some (f i)) :
    harvestLog n log₁ = harvestLog n log₂ ∧
    harvestLog n log₁ =
      (List.range n).foldl
        (fun acc i =>
          match f i with
          | .ok r => acc ++ [r]
          | .error _ => acc)
        [] := by
  have k₁ := harvest_foldl_congr log₁ f (List.range n)
    (fun i hi => h₁ i (List.mem_range.mp hi)) []
  have k₂ := harvest_foldl_congr log₂ f (List.range n)
    (fun i hi => h₂ i (List.mem_range.mp hi)) []
  constructor
  · unfold harvestLog
    rw [k₁, k₂]
  · unfold harvestLog
    rw [k₁]

theorem C7_witness :
    harvestLog 2
        [(0, .ok { file := "/w.c", headers_all := 0, headers_sys := 0,
                   bytes := 1, bytes_pp := 2, lines := 3, lines_pp := 4,
                   time_pp := 0, time_run := 0 }),
         (1, .error .typeError)] =
      harvestLog 2
        [(1, .error .typeError),
         (0, .ok { file := "/w.c", headers_all := 0, headers_sys := 0,
                   bytes := 1, bytes_pp := 2, lines := 3, lines_pp := 4,
                   time_pp := 0, time_run := 0 })] ∧
    harvestLog 2
        [(0, .ok { file := "/w.c", headers_all := 0, headers_sys := 0,
                   bytes := 1, bytes_pp := 2, lines := 3, lines_pp := 4,
                   time_pp := 0, time_run := 0 }),
         (1, .error .typeError)] =
      (List.range 2).foldl
        (fun acc i =>
          match
            (if i = 0 then
              Except.ok { file := "/w.c", headers_all := 0, headers_sys := 0,
                          bytes := 1, bytes_pp := 2, lines := 3, lines_pp := 4,
                          time_pp := 0, time_run := 0 }
             else Except.error PyError.typeError) with
          | .ok r => acc ++ [r]
          | .error _ => acc)
        [] :=
  C7_submission_order 2
    (fun i =>
      if i = 0 then
        .ok { file := "/w.c", headers_all := 0, headers_sys := 0,
              bytes := 1, bytes_pp := 2, lines := 3, lines_pp := 4,
              time_pp := 0, time_run := 0 }
      else .error .typeError)
    _ _
    (by intro i hi; interval_cases i <;> rfl)
    (by intro i hi; interval_cases i <;> rfl)

theorem decode_encode (r : MetricRecord) :
    decodeRecord (encodeRecord r) = some r := rfl

theorem decodeRecordList_encode (db : List MetricRecord) :
    decodeRecordList (db.map encodeRecord) = some db := by
  induction db with
  | nil => rfl
  | cons r db ih => simp [decodeRecordList, decode_encode, ih]

/-- C8: saving a Record Database through the Record Store and loading it
back is the identity on every record and every field; in particular the
timing fields `time_pp` and `time_run` of each loaded record are exactly
the stored values — the load path only parses, it recomputes nothing. -/
theorem C8_record_store_round_trip (db : List MetricRecord) :
    load_record_db (save_record_db db) = some db :=
  decodeRecordList_encode db

theorem depFlags0_strip : ∀ m ∈ depFlags0, pyStrip m = m := by decide

theorem depFlags1_strip : ∀ m ∈ depFlags1, pyStrip m = m := by decide

/-- C5 (amended): for every well-formed command `prog :: args` whose
argument tokens satisfy `goodArgs` — no token strips to empty and every
`-o`/`-MF`/`-MT`/`-MQ` is immediately followed by a plain argument token
(not itself `-c`, `-o` or a dependency flag) — and that contains `-c` and
`-o`, the Command Transformer's output contains `-E` in place of `-c`,
contains the `-o` flag adjacently followed by the scratch-file path,
contains none of `-M -MM -MG -MP -MD -MMD -MF -MT -MQ` (assuming the
program name and scratch path are not themselves such flags), and ends
with the header-trace flag `-H` appended unconditionally. -/
theorem C5_transformer (cpp cmd prog : String) (args : List String)
    (hsplit : shlexSplit cmd = .ok (prog :: args))
    (hgood : goodArgs args = true)
    (hprog0 : prog ∉ depFlags0) (hprog1 : prog ∉ depFlags1)
    (hcpp0 : cpp ∉ depFlags0) (hcpp1 : cpp ∉ depFlags1)
    (hc : "-c" ∈ args) (ho : "-o" ∈ args) :
    "-E" ∈ gccTransformTokens cpp (prog :: args) ∧
    (∃ l₁ l₂,
      gccTransformTokens cpp (prog :: args) = l₁ ++ "-o" :: cpp :: l₂) ∧
    (∀ m, m ∈ depFlags0 ∨ m ∈ depFlags1 →
      m ∉ gccTransformTokens cpp (prog :: args)) ∧
    (gccTransformTokens cpp (prog :: args)).getLast? = some "-H" := by
  rw [gccTransformTokens_eq]
  refine ⟨?_, ?_, ?_, ?_⟩
  · exact List.mem_append_left _
      (List.mem_cons_of_mem _ (foldr_E cpp [] args hgood hc))
  · obtain ⟨l₁, l₂, hl⟩ := foldr_o cpp [] args hgood ho
    refine ⟨prog :: l₁, l₂ ++ ["-H"], ?_⟩
    rw [hl]
    simp
  · intro m hm hmem
    rcases List.mem_append.mp hmem with hm1 | hm2
    · rcases List.mem_cons.mp hm1 with rfl | hm1'
      · rcases hm with h | h
        · exact hprog0 h
        · exact hprog1 h
      · rcases foldr_mem cpp [] args hgood m hm1' with h | h | h | ⟨_, hs0, hs1, _⟩
        · exact absurd h (List.not_mem_nil m)
        · subst h
          rcases hm with h | h <;> exact absurd h (by decide)
        · subst h
          rcases hm with h | h
          · exact hcpp0 h
          · exact hcpp1 h
        · rcases hm with h | h
          · exact hs0 ((depFlags0_strip m h).symm ▸ h)
          · exact hs1 ((depFlags1_strip m h).symm ▸ h)
    · rw [List.mem_singleton] at hm2
      subst hm2
      rcases hm with h | h <;> exact absurd h (by decide)
  · exact List.getLast?_concat _

theorem C5_witness :
    shlexSplit "gcc -c foo.c -o out.o -MF dep.d -M" =
      .ok ["gcc", "-c", "foo.c", "-o", "out.o", "-MF", "dep.d", "-M"] ∧
    goodArgs ["-c", "foo.c", "-o", "out.o", "-MF", "dep.d", "-M"] = true ∧
    ("-E" ∈ gccTransformTokens "/tmp/ccperf5w.i"
        ("gcc" :: ["-c", "foo.c", "-o", "out.o", "-MF", "dep.d", "-M"]) ∧
     (∃ l₁ l₂,
       gccTransformTokens "/tmp/ccperf5w.i"
           ("gcc" :: ["-c", "foo.c", "-o", "out.o", "-MF", "dep.d", "-M"]) =
         l₁ ++ "-o" :: "/tmp/ccperf5w.i" :: l₂) ∧
     (∀ m, m ∈ depFlags0 ∨ m ∈ depFlags1 →
       m ∉ gccTransformTokens "/tmp/ccperf5w.i"
         ("gcc" :: ["-c", "foo.c", "-o", "out.o", "-MF", "dep.d", "-M"])) ∧
     (gccTransformTokens "/tmp/ccperf5w.i"
         ("gcc" :: ["-c", "foo.c", "-o", "out.o", "-MF", "dep.d", "-M"])).getLast? =
       some "-H") :=
  ⟨rfl, by decide,
   C5_transformer "/tmp/ccperf5w.i" "gcc -c foo.c -o out.o -MF dep.d -M" "gcc"
     ["-c", "foo.c", "-o", "out.o", "-MF", "dep.d", "-M"]
     rfl (by decide) (by decide) (by decide) (by decide) (by decide)
     (by decide) (by decide)⟩

/-- C5 counterexample: the well-formed command
`gcc -MT -M -c -o out.o` contains the tokens `-c -o out.o`, yet the
transformed output is `["gcc", "-o", scratch, "-H"]`: the backward scan
first rewrites `-c` to `-E` and removes `-M`, which shifts `-E` into the
argument position of `-MT`, whose pair-removal then deletes it — so the
output does not contain `-E` in place of `-c` as the claim states. -/
theorem C5_counterexample :
    shlexSplit "gcc -MT -M -c -o out.o" =
      .ok ["gcc", "-MT", "-M", "-c", "-o", "out.o"] ∧
    "-c" ∈ ["gcc", "-MT", "-M", "-c", "-o", "out.o"] ∧
    "-o" ∈ ["gcc", "-MT", "-M", "-c", "-o", "out.o"] ∧
    "out.o" ∈ ["gcc", "-MT", "-M", "-c", "-o", "out.o"] ∧
    gccTransformTokens "/tmp/ccperf5.i"
        ["gcc", "-MT", "-M", "-c", "-o", "out.o"] =
      ["gcc", "-o", "/tmp/ccperf5.i", "-H"] ∧
    "-E" ∉ gccTransformTokens "/tmp/ccperf5.i"
        ["gcc", "-MT", "-M", "-c", "-o", "out.o"] :=
  ⟨rfl, by decide, by decide, by decide, by decide, by decide⟩

end Ccperf
